import Mathlib

/-!
Verification development for the CrashSense metrics collection and
normalization pipeline (backend/core/collector.py and
backend/core/preprocessor.py), shallowly embedded in Lean.

Python dictionaries with string keys are modelled as association lists
(first binding wins, mirroring dict lookup on dicts built without key
repetition). Machine floats are modelled as real numbers. A psutil
counter-family read that is unavailable on the platform is modelled as
an Option value, matching the code, where disk_io_counters and
net_io_counters return None in that case.
-/

namespace CrashSense

/-- Model of a Python dict with string keys: an association list. -/
abbrev Dict (α : Type) := List (String × α)

/-- Model of Python dict indexing d[k] / d.get(k): first matching binding. -/
def dget {α : Type} (d : Dict α) (k : String) : Option α :=
  List.lookup k d

/-- Model of Python d.get(k, default). -/
def dgetD {α : Type} (d : Dict α) (k : String) (v : α) : α :=
  (dget d k).getD v

/-- Key list of a dict, in insertion order. -/
def keys {α : Type} (d : Dict α) : List String :=
  d.map Prod.fst

/-!
DataScaler.normalize_metrics (backend/core/preprocessor.py, lines 57-93).
The input is Option (Dict ℝ): none models passing Python None, and the
falsy check `if not metrics` maps None and the empty dict to the empty
output. np.log1p x is the natural logarithm of (1 + x). The timestamp
entry is written from metrics.get with no default, exactly as in the
source, so a dict lacking the key yields a Python None value, modelled
as (none : Option ℝ) in the output.
-/

/-- Embedding of DataScaler.normalize_metrics. Output values are
Option ℝ, where none models a Python None value. -/
noncomputable def normalize_metrics (metrics : Option (Dict ℝ)) : Dict (Option ℝ) :=
  match metrics with
  | none => []
  | some m =>
    if m.isEmpty then []
    else
      [ ("cpu_percent", some (dgetD m "cpu_percent" 0 / 100)),
        ("memory_percent", some (dgetD m "memory_percent" 0 / 100)),
        ("disk_read_bytes", some (Real.log (1 + dgetD m "disk_read_bytes" 0))),
        ("disk_write_bytes", some (Real.log (1 + dgetD m "disk_write_bytes" 0))),
        ("net_bytes_recv", some (Real.log (1 + dgetD m "net_bytes_recv" 0))),
        ("net_bytes_sent", some (Real.log (1 + dgetD m "net_bytes_sent" 0))),
        ("timestamp", dget m "timestamp") ]

/-!
SystemMonitor (backend/core/collector.py).

The circular buffer is a collections.deque with maxlen. Appending to a
deque with maxlen first appends and then discards from the left until
the length is at most maxlen; with truncated Nat subtraction this is a
single drop.
-/

/-- Embedding of deque.append for a deque with the given maxlen. -/
def dequeAppend {α : Type} (maxlen : Nat) (buf : List α) (x : α) : List α :=
  (buf ++ [x]).drop (buf.length + 1 - maxlen)

/-- Appending a whole sequence of samples into an initially empty deque. -/
def runAppends {α : Type} (maxlen : Nat) (xs : List α) : List α :=
  xs.foldl (dequeAppend maxlen) []

/-- Values read from the OS on one tick. disk_io and net_io are the
results of psutil.disk_io_counters and psutil.net_io_counters: none
models the counter family being unavailable (the call returning None).
For disk_io the pair is (read_bytes, write_bytes); for net_io it is
(bytes_sent, bytes_recv). -/
structure TickReads where
  timestamp : ℝ
  cpu_percent : ℝ
  memory_percent : ℝ
  memory_used : ℝ
  disk_io : Option (ℝ × ℝ)
  net_io : Option (ℝ × ℝ)

/-- Embedding of SystemMonitor._collect_metrics (collector.py lines
104-134): builds the sample dict from the reads of one tick, with the
zero substitution for an unavailable counter family. -/
def collect_metrics (r : TickReads) : Dict ℝ :=
  [ ("timestamp", r.timestamp),
    ("cpu_percent", r.cpu_percent),
    ("memory_percent", r.memory_percent),
    ("memory_used", r.memory_used),
    ("disk_read_bytes", match r.disk_io with | some io => io.1 | none => 0),
    ("disk_write_bytes", match r.disk_io with | some io => io.2 | none => 0),
    ("net_bytes_sent", match r.net_io with | some io => io.1 | none => 0),
    ("net_bytes_recv", match r.net_io with | some io => io.2 | none => 0) ]

/-- State of a SystemMonitor instance: the history_size configuration,
the running flag, the number of live background polling threads, and
the metrics_history deque (oldest first). -/
structure MonitorState where
  history_size : Nat
  running : Bool
  cycles : Nat
  metrics_history : List (Dict ℝ)

/-- A freshly constructed SystemMonitor (collector.py lines 61-67):
stopped, no thread, empty buffer. -/
def initMonitor (history_size : Nat) : MonitorState :=
  ⟨history_size, false, 0, []⟩

/-- Observable events of the monitor lifecycle: the public start and
stop calls, and one iteration of the background polling loop reading
the given tick values. -/
inductive Event where
  | start
  | stop
  | tick (r : TickReads)

/-- One step of the monitor. start (lines 69-79) spawns a single
polling thread only when not already running. stop (lines 81-89)
clears the running flag and joins the thread, so after it returns no
polling thread is live. A tick (the body of _poll_loop, lines 91-102)
appends a collected sample only while the running flag is set; once
the flag is cleared the loop body is never entered again. -/
def step (s : MonitorState) : Event → MonitorState
  | Event.start =>
      if s.running then s else { s with running := true, cycles := 1 }
  | Event.stop => { s with running := false, cycles := 0 }
  | Event.tick r =>
      if s.running then
        { s with metrics_history :=
            dequeAppend s.history_size s.metrics_history (collect_metrics r) }
      else s

/-- Running a sequence of events from a state. -/
def run (s : MonitorState) (es : List Event) : MonitorState :=
  es.foldl step s

/-- Embedding of SystemMonitor.get_latest_metrics (lines 136-147):
the last element of the buffer, or none when the buffer is empty. -/
def get_latest_metrics (s : MonitorState) : Option (Dict ℝ) :=
  if s.metrics_history.isEmpty then none
  else s.metrics_history[s.metrics_history.length - 1]?

/-- Embedding of SystemMonitor.get_history (lines 149-158): a copy of
the buffer, oldest first. -/
def get_history (s : MonitorState) : List (Dict ℝ) :=
  s.metrics_history

/-- The sampler state invariant: exactly one background cycle is live
while running, none while stopped. -/
def WellFormedCycles (s : MonitorState) : Prop :=
  s.cycles = if s.running then 1 else 0

/-!
LogMonitor.start (collector.py lines 199-218). The filesystem is
abstracted as a predicate pathExists, and os.path.dirname of
os.path.abspath is abstracted as parentDir. The Python set of watched
directories is modelled as a deduplicated list.
-/

/-- Embedding of LogMonitor.start: the set of directories scheduled
for watching. The source filters each log_file by os.path.exists on
the file itself, and only then takes its parent directory. -/
def logMonitor_start (pathExists : String → Bool) (parentDir : String → String)
    (log_paths : List String) : List String :=
  ((log_paths.filter (fun p => pathExists p)).map parentDir).dedup

/-- Watch-set computation following the words of the spec sentence for
the watcher, for comparison with logMonitor_start: every target has
its parent directory resolved, and a directory is watched exactly when
it currently exists. -/
def logMonitor_start_specVersion (pathExists : String → Bool) (parentDir : String → String)
    (log_paths : List String) : List String :=
  ((log_paths.filter (fun p => pathExists (parentDir p))).map parentDir).dedup

/-! Helper lemmas about the deque embedding. -/

theorem dequeAppend_length {α : Type} (maxlen : Nat) (buf : List α) (x : α) :
    (dequeAppend maxlen buf x).length = min (buf.length + 1) maxlen := by
  simp only [dequeAppend, List.length_drop, List.length_append, List.length_singleton]
  omega

theorem foldl_dequeAppend_eq {α : Type} (maxlen : Nat) (xs : List α) :
    ∀ buf : List α, buf.length ≤ maxlen →
      xs.foldl (dequeAppend maxlen) buf = (buf ++ xs).drop (buf.length + xs.length - maxlen) := by
  induction xs with
  | nil =>
    intro buf h
    have h0 : buf.length - maxlen = 0 := by omega
    simp [h0]
  | cons x xs ih =>
    intro buf h
    have hlen := dequeAppend_length maxlen buf x
    rw [List.foldl_cons, ih (dequeAppend maxlen buf x) (by omega), hlen]
    simp only [dequeAppend]
    rw [← List.drop_append_of_le_length
      (by simp only [List.length_append, List.length_singleton]; omega),
      List.drop_drop, List.append_assoc, List.singleton_append]
    congr 1
    simp only [List.length_cons]
    omega

theorem runAppends_eq {α : Type} (maxlen : Nat) (xs : List α) :
    runAppends maxlen xs = xs.drop (xs.length - maxlen) := by
  have h := foldl_dequeAppend_eq maxlen xs [] (by simp)
  simpa [runAppends] using h

/-! Helper lemmas about the monitor transition system. -/

theorem run_ticks_not_running (s : MonitorState) (h : s.running = false)
    (rs : List TickReads) : run s (rs.map Event.tick) = s := by
  induction rs with
  | nil => rfl
  | cons r rs ih =>
    have hs : step s (Event.tick r) = s := by simp [step, h]
    calc run s ((r :: rs).map Event.tick)
        = run (step s (Event.tick r)) (rs.map Event.tick) := rfl
      _ = run s (rs.map Event.tick) := by rw [hs]
      _ = s := ih

theorem wellFormedCycles_init (N : Nat) : WellFormedCycles (initMonitor N) := rfl

theorem wellFormedCycles_step (s : MonitorState) (e : Event)
    (h : WellFormedCycles s) : WellFormedCycles (step s e) := by
  cases e <;> by_cases hr : s.running <;>
    simp_all [step, WellFormedCycles]

/-! Helper lemma reducing normalize_metrics on a non-empty dict. -/

theorem normalize_metrics_eq (m : Dict ℝ) (h : m.isEmpty = false) :
    normalize_metrics (some m) =
      [ ("cpu_percent", some (dgetD m "cpu_percent" 0 / 100)),
        ("memory_percent", some (dgetD m "memory_percent" 0 / 100)),
        ("disk_read_bytes", some (Real.log (1 + dgetD m "disk_read_bytes" 0))),
        ("disk_write_bytes", some (Real.log (1 + dgetD m "disk_write_bytes" 0))),
        ("net_bytes_recv", some (Real.log (1 + dgetD m "net_bytes_recv" 0))),
        ("net_bytes_sent", some (Real.log (1 + dgetD m "net_bytes_sent" 0))),
        ("timestamp", dget m "timestamp") ] := by
  rw [normalize_metrics]
  rw [if_neg (by simp [h])]

theorem dget_ne_nil {α : Type} {m : Dict α} {k : String} {v : α}
    (h : dget m k = some v) : m.isEmpty = false := by
  cases m with
  | nil => simp [dget] at h
  | cons a l => rfl

/-- C1: on an input holding all the metric fields, normalize_metrics
divides the percentage fields by 100 with no clamping, sends each byte
counter x to the natural log of (1 + x), which is 0 at 0 and
non-negative on non-negative input, and passes the timestamp through
unchanged. -/
theorem spec_C1_normalizer_reference (m : Dict ℝ) (c p dr dw ns nr t : ℝ)
    (hc : dget m "cpu_percent" = some c)
    (hp : dget m "memory_percent" = some p)
    (hdr : dget m "disk_read_bytes" = some dr)
    (hdw : dget m "disk_write_bytes" = some dw)
    (hns : dget m "net_bytes_sent" = some ns)
    (hnr : dget m "net_bytes_recv" = some nr)
    (ht : dget m "timestamp" = some t) :
    dget (normalize_metrics (some m)) "cpu_percent" = some (some (c / 100)) ∧
    dget (normalize_metrics (some m)) "memory_percent" = some (some (p / 100)) ∧
    (100 < c → 1 < c / 100) ∧
    dget (normalize_metrics (some m)) "disk_read_bytes" =
      some (some (Real.log (1 + dr))) ∧
    dget (normalize_metrics (some m)) "disk_write_bytes" =
      some (some (Real.log (1 + dw))) ∧
    dget (normalize_metrics (some m)) "net_bytes_sent" =
      some (some (Real.log (1 + ns))) ∧
    dget (normalize_metrics (some m)) "net_bytes_recv" =
      some (some (Real.log (1 + nr))) ∧
    Real.log (1 + (0 : ℝ)) = 0 ∧
    (0 ≤ dr → 0 ≤ Real.log (1 + dr)) ∧
    dget (normalize_metrics (some m)) "timestamp" = some (some t) := by
  have hne : m.isEmpty = false := dget_ne_nil hc
  have heq := normalize_metrics_eq m hne
  simp only [dget] at hc hp hdr hdw hns hnr ht
  refine ⟨?_, ?_, ?_, ?_, ?_, ?_, ?_, ?_, ?_, ?_⟩
  · rw [heq]; simp [dget, dgetD, List.lookup, hc]
  · rw [heq]; simp [dget, dgetD, List.lookup, hp]
  · intro h
    exact (one_lt_div (by norm_num)).mpr h
  · rw [heq]; simp [dget, dgetD, List.lookup, hdr]
  · rw [heq]; simp [dget, dgetD, List.lookup, hdw]
  · rw [heq]; simp [dget, dgetD, List.lookup, hns]
  · rw [heq]; simp [dget, dgetD, List.lookup, hnr]
  · norm_num
  · intro h
    apply Real.log_nonneg
    linarith
  · rw [heq]; simp [dget, List.lookup, ht]

/-- Witness for C1 on a fully populated sample with a cpu reading
above 100. -/
theorem spec_C1_witness :
    dget (normalize_metrics (some
        [("cpu_percent", (250 : ℝ)), ("memory_percent", 50),
          ("disk_read_bytes", 0), ("disk_write_bytes", 7),
          ("net_bytes_sent", 3), ("net_bytes_recv", 4),
          ("timestamp", 1700)])) "cpu_percent" = some (some (250 / 100)) ∧
    (1 : ℝ) < 250 / 100 ∧
    dget (normalize_metrics (some
        [("cpu_percent", (250 : ℝ)), ("memory_percent", 50),
          ("disk_read_bytes", 0), ("disk_write_bytes", 7),
          ("net_bytes_sent", 3), ("net_bytes_recv", 4),
          ("timestamp", 1700)])) "disk_read_bytes" =
      some (some (Real.log (1 + 0))) ∧
    dget (normalize_metrics (some
        [("cpu_percent", (250 : ℝ)), ("memory_percent", 50),
          ("disk_read_bytes", 0), ("disk_write_bytes", 7),
          ("net_bytes_sent", 3), ("net_bytes_recv", 4),
          ("timestamp", 1700)])) "timestamp" = some (some 1700) := by
  obtain ⟨h1, -, h3, h4, -, -, -, -, -, h10⟩ :=
    spec_C1_normalizer_reference
      [("cpu_percent", (250 : ℝ)), ("memory_percent", 50),
        ("disk_read_bytes", 0), ("disk_write_bytes", 7),
        ("net_bytes_sent", 3), ("net_bytes_recv", 4), ("timestamp", 1700)]
      250 50 0 7 3 4 1700 rfl rfl rfl rfl rfl rfl rfl
  exact ⟨h1, h3 (by norm_num), h4, h10⟩

/-- C4 counterexample: the source writes the output timestamp from
metrics.get with no default, so on a non-empty input lacking the
timestamp key the output timestamp is the Python None value, not 0 as
the claim states. -/
theorem spec_C4_counterexample :
    dget (normalize_metrics (some [("cpu_percent", (50 : ℝ))])) "timestamp" =
      some none ∧
    some (none : Option ℝ) ≠ some (some (0 : ℝ)) := by
  constructor
  · rfl
  · simp

/-- C4 amended: an absent or empty input yields an empty output with
no exception; on a present non-empty input, each numeric field that is
missing defaults to 0 before its transformation, independently of
which other fields are present; a missing timestamp, however, yields a
None output value rather than 0. -/
theorem spec_C4_amended_missing_defaults (m : Dict ℝ) (hne : m.isEmpty = false) :
    normalize_metrics none = [] ∧
    normalize_metrics (some []) = [] ∧
    (dget m "cpu_percent" = none →
      dget (normalize_metrics (some m)) "cpu_percent" =
        some (some ((0 : ℝ) / 100))) ∧
    (dget m "memory_percent" = none →
      dget (normalize_metrics (some m)) "memory_percent" =
        some (some ((0 : ℝ) / 100))) ∧
    (dget m "disk_read_bytes" = none →
      dget (normalize_metrics (some m)) "disk_read_bytes" =
        some (some (Real.log (1 + 0)))) ∧
    (dget m "disk_write_bytes" = none →
      dget (normalize_metrics (some m)) "disk_write_bytes" =
        some (some (Real.log (1 + 0)))) ∧
    (dget m "net_bytes_recv" = none →
      dget (normalize_metrics (some m)) "net_bytes_recv" =
        some (some (Real.log (1 + 0)))) ∧
    (dget m "net_bytes_sent" = none →
      dget (normalize_metrics (some m)) "net_bytes_sent" =
        some (some (Real.log (1 + 0)))) ∧
    (dget m "timestamp" = none →
      dget (normalize_metrics (some m)) "timestamp" = some none) := by
  have heq := normalize_metrics_eq m hne
  refine ⟨rfl, rfl, ?_, ?_, ?_, ?_, ?_, ?_, ?_⟩ <;>
    intro h <;> simp only [dget] at h
  · rw [heq]; simp [dget, dgetD, List.lookup, h]
  · rw [heq]; simp [dget, dgetD, List.lookup, h]
  · rw [heq]; simp [dget, dgetD, List.lookup, h]
  · rw [heq]; simp [dget, dgetD, List.lookup, h]
  · rw [heq]; simp [dget, dgetD, List.lookup, h]
  · rw [heq]; simp [dget, dgetD, List.lookup, h]
  · rw [heq]; simp [dget, List.lookup, h]

/-- Witness for the amended C4 on mixed inputs: an input where only
cpu_percent is present (its missing timestamp comes out None and its
missing memory_percent comes out 0 / 100), and an input where only the
timestamp is present (its missing disk_read_bytes comes out
log(1 + 0)). -/
theorem spec_C4_witness :
    normalize_metrics none = [] ∧
    normalize_metrics (some []) = [] ∧
    dget (normalize_metrics (some [("cpu_percent", (50 : ℝ))])) "timestamp" =
      some none ∧
    dget (normalize_metrics (some [("cpu_percent", (50 : ℝ))])) "memory_percent" =
      some (some ((0 : ℝ) / 100)) ∧
    dget (normalize_metrics (some [("timestamp", (99 : ℝ))])) "disk_read_bytes" =
      some (some (Real.log (1 + 0))) := by
  obtain ⟨h1, h2, -, hmem, -, -, -, -, ht⟩ :=
    spec_C4_amended_missing_defaults [("cpu_percent", (50 : ℝ))] rfl
  obtain ⟨-, -, -, -, hdr, -, -, -, -⟩ :=
    spec_C4_amended_missing_defaults [("timestamp", (99 : ℝ))] rfl
  exact ⟨h1, h2, ht rfl, hmem rfl, hdr rfl⟩

/-- C6: for every non-empty input, the output key list of
normalize_metrics is exactly the seven metric keys; in particular,
when the input key set is exactly those seven keys, the output has the
same key set as the input. -/
theorem spec_C6_output_key_set (m : Dict ℝ) (h : m.isEmpty = false) :
    keys (normalize_metrics (some m)) =
      ["cpu_percent", "memory_percent", "disk_read_bytes", "disk_write_bytes",
        "net_bytes_recv", "net_bytes_sent", "timestamp"] ∧
    ((∀ k, k ∈ keys m ↔
        k ∈ ["cpu_percent", "memory_percent", "disk_read_bytes",
          "disk_write_bytes", "net_bytes_recv", "net_bytes_sent", "timestamp"]) →
      ∀ k, k ∈ keys (normalize_metrics (some m)) ↔ k ∈ keys m) := by
  have heq := normalize_metrics_eq m h
  have h1 : keys (normalize_metrics (some m)) =
      ["cpu_percent", "memory_percent", "disk_read_bytes", "disk_write_bytes",
        "net_bytes_recv", "net_bytes_sent", "timestamp"] := by
    rw [heq]; rfl
  refine ⟨h1, ?_⟩
  intro hin k
  rw [h1]
  exact (hin k).symm

/-- Witness for C6 on a fully populated sample. -/
theorem spec_C6_witness :
    keys (normalize_metrics (some
        [("cpu_percent", (250 : ℝ)), ("memory_percent", 50),
          ("disk_read_bytes", 0), ("disk_write_bytes", 7),
          ("net_bytes_sent", 3), ("net_bytes_recv", 4),
          ("timestamp", 1700)])) =
      ["cpu_percent", "memory_percent", "disk_read_bytes", "disk_write_bytes",
        "net_bytes_recv", "net_bytes_sent", "timestamp"] :=
  (spec_C6_output_key_set
    [("cpu_percent", (250 : ℝ)), ("memory_percent", 50),
      ("disk_read_bytes", 0), ("disk_write_bytes", 7),
      ("net_bytes_sent", 3), ("net_bytes_recv", 4), ("timestamp", 1700)] rfl).1

/-- C2: for every capacity N and sequence of appends, the buffer never
exceeds N entries; after at least N appends the history is exactly the
N most recent samples oldest-first; appending to a full buffer evicts
exactly the oldest entry; and capacity 0 holds nothing. -/
theorem spec_C2_bounded_fifo_buffer {α : Type} (N : Nat) (xs : List α)
    (buf : List α) (x : α) :
    (runAppends N xs).length ≤ N ∧
    (N ≤ xs.length →
      runAppends N xs = xs.drop (xs.length - N) ∧ (runAppends N xs).length = N) ∧
    (buf.length = N → 0 < N → dequeAppend N buf x = buf.tail ++ [x]) ∧
    runAppends 0 xs = [] := by
  refine ⟨?_, ?_, ?_, ?_⟩
  · rw [runAppends_eq]
    simp only [List.length_drop]
    omega
  · intro h
    refine ⟨runAppends_eq N xs, ?_⟩
    rw [runAppends_eq]
    simp only [List.length_drop]
    omega
  · intro hfull hpos
    simp only [dequeAppend, hfull]
    have h1 : N + 1 - N = 1 := by omega
    rw [h1]
    cases buf with
    | nil => simp at hfull; omega
    | cons b bs => simp
  · rw [runAppends_eq]
    simp

/-- Witness for C2 at capacity 2 with three appends. -/
theorem spec_C2_witness :
    runAppends 2 [1, 2, 3] = [2, 3] ∧ (runAppends 2 [1, 2, 3]).length = 2 ∧
      dequeAppend 2 [10, 20] 30 = [20, 30] ∧ runAppends 0 [1, 2, 3] = [] := by
  obtain ⟨-, h2, h3, h4⟩ := spec_C2_bounded_fifo_buffer 2 [1, 2, 3] [10, 20] 30
  have h2l := h2 (by decide)
  have h3l := h3 (by decide) (by decide)
  exact ⟨by simpa using h2l.1, h2l.2, by simpa using h3l, h4⟩

/-- C7: after stop, the running flag is cleared and the background
thread has been joined (no live cycle), so any number of further tick
opportunities leaves the state, and in particular get_history,
unchanged. -/
theorem spec_C7_clean_stop (s : MonitorState) (rs : List TickReads) :
    (step s Event.stop).running = false ∧
    (step s Event.stop).cycles = 0 ∧
    run (step s Event.stop) (rs.map Event.tick) = step s Event.stop ∧
    get_history (run (step s Event.stop) (rs.map Event.tick)) =
      get_history (step s Event.stop) := by
  refine ⟨rfl, rfl, ?_, ?_⟩
  · exact run_ticks_not_running _ rfl rs
  · rw [run_ticks_not_running _ rfl rs]

/-- C8: start while running is a no-op leaving exactly one live
background cycle, and stop while stopped is a no-op on the state. -/
theorem spec_C8_idempotent_start_stop (s : MonitorState) :
    step (step s Event.start) Event.start = step s Event.start ∧
    (WellFormedCycles s →
      (step s Event.start).cycles = 1 ∧ (step s Event.start).running = true) ∧
    (s.running = false → s.cycles = 0 → step s Event.stop = s) := by
  refine ⟨?_, ?_, ?_⟩
  · by_cases h : s.running <;> simp [step, h]
  · intro hwf
    by_cases h : s.running
    · have hstep : step s Event.start = s := by simp [step, h]
      rw [hstep]
      rw [WellFormedCycles, h] at hwf
      exact ⟨by simpa using hwf, h⟩
    · simp [step, h]
  · intro h1 h2
    show { s with running := false, cycles := 0 } = s
    cases s
    simp_all

/-- Witness for C8 on a freshly constructed monitor of capacity 5. -/
theorem spec_C8_witness :
    step (step (initMonitor 5) Event.start) Event.start =
      step (initMonitor 5) Event.start ∧
    ((step (initMonitor 5) Event.start).cycles = 1 ∧
      (step (initMonitor 5) Event.start).running = true) ∧
    step (initMonitor 5) Event.stop = initMonitor 5 := by
  obtain ⟨h1, h2, h3⟩ := spec_C8_idempotent_start_stop (initMonitor 5)
  exact ⟨h1, h2 rfl, h3 rfl rfl⟩

/-! Helper lemma: ticking a running monitor appends exactly one sample
per tick, keeping the buffer within its capacity. -/

theorem run_ticks_running (rs : List TickReads) :
    ∀ st : MonitorState, st.running = true →
      st.metrics_history.length ≤ st.history_size →
      (run st (rs.map Event.tick)).running = true ∧
      (run st (rs.map Event.tick)).metrics_history.length =
        min (st.metrics_history.length + rs.length) st.history_size := by
  induction rs with
  | nil =>
    intro st hr hlen
    refine ⟨hr, ?_⟩
    simp only [List.map_nil, run, List.foldl_nil, List.length_nil, Nat.add_zero]
    omega
  | cons r rs ih =>
    intro st hr hlen
    have hstep : step st (Event.tick r) =
        { st with metrics_history :=
            dequeAppend st.history_size st.metrics_history (collect_metrics r) } := by
      simp [step, hr]
    have hdl := dequeAppend_length st.history_size st.metrics_history (collect_metrics r)
    have hrun : run st ((r :: rs).map Event.tick) =
        run (step st (Event.tick r)) (rs.map Event.tick) := rfl
    rw [hrun, hstep]
    have hih := ih
      { st with metrics_history :=
          dequeAppend st.history_size st.metrics_history (collect_metrics r) }
      hr (by rw [hdl] at *; exact Nat.min_le_right _ _)
    refine ⟨hih.1, ?_⟩
    rw [hih.2]
    simp only [List.length_cons]
    rw [hdl]
    omega

/-- C3: on any tick, whichever counter family (disk I/O or network
I/O) comes back unavailable has both of its fields substituted with 0,
while a family whose read succeeds keeps its read values and the
scalar fields always keep theirs; the sample is still produced
(collect_metrics is total) and the polling loop keeps appending
exactly one sample per tick afterwards. -/
theorem spec_C3_counter_family_zero_degrade (r : TickReads) :
    (r.disk_io = none →
      dget (collect_metrics r) "disk_read_bytes" = some 0 ∧
      dget (collect_metrics r) "disk_write_bytes" = some 0) ∧
    (r.net_io = none →
      dget (collect_metrics r) "net_bytes_sent" = some 0 ∧
      dget (collect_metrics r) "net_bytes_recv" = some 0) ∧
    (∀ dr dw : ℝ, r.disk_io = some (dr, dw) →
      dget (collect_metrics r) "disk_read_bytes" = some dr ∧
      dget (collect_metrics r) "disk_write_bytes" = some dw) ∧
    (∀ bs br : ℝ, r.net_io = some (bs, br) →
      dget (collect_metrics r) "net_bytes_sent" = some bs ∧
      dget (collect_metrics r) "net_bytes_recv" = some br) ∧
    dget (collect_metrics r) "cpu_percent" = some r.cpu_percent ∧
    dget (collect_metrics r) "memory_percent" = some r.memory_percent ∧
    dget (collect_metrics r) "memory_used" = some r.memory_used ∧
    dget (collect_metrics r) "timestamp" = some r.timestamp ∧
    (∀ st : MonitorState, st.running = true →
      st.metrics_history.length ≤ st.history_size →
      ∀ rs : List TickReads,
        (run st ((r :: rs).map Event.tick)).metrics_history.length =
          min (st.metrics_history.length + (rs.length + 1)) st.history_size ∧
        (run st ((r :: rs).map Event.tick)).running = true) := by
  refine ⟨?_, ?_, ?_, ?_, ?_, ?_, ?_, ?_, ?_⟩
  · intro hdisk
    constructor <;> simp [collect_metrics, dget, List.lookup, hdisk]
  · intro hnet
    constructor <;> simp [collect_metrics, dget, List.lookup, hnet]
  · intro dr dw hdisk
    constructor <;> simp [collect_metrics, dget, List.lookup, hdisk]
  · intro bs br hnet
    constructor <;> simp [collect_metrics, dget, List.lookup, hnet]
  · simp [collect_metrics, dget, List.lookup]
  · simp [collect_metrics, dget, List.lookup]
  · simp [collect_metrics, dget, List.lookup]
  · simp [collect_metrics, dget, List.lookup]
  · intro st hr hlen rs
    have h := run_ticks_running (r :: rs) st hr hlen
    refine ⟨?_, h.1⟩
    rw [h.2]
    simp only [List.length_cons]

/-- Witness for C3 on two concrete ticks: one where the disk family is
unavailable while the network read succeeds, and one where the network
family is unavailable while the disk read succeeds; the first tick is
also appended to the buffer by the loop. -/
theorem spec_C3_witness :
    dget (collect_metrics ⟨1, 55, 60, 1024, none, some (3, 4)⟩)
      "disk_read_bytes" = some 0 ∧
    dget (collect_metrics ⟨1, 55, 60, 1024, none, some (3, 4)⟩)
      "disk_write_bytes" = some 0 ∧
    dget (collect_metrics ⟨1, 55, 60, 1024, none, some (3, 4)⟩)
      "net_bytes_sent" = some 3 ∧
    dget (collect_metrics ⟨1, 55, 60, 1024, none, some (3, 4)⟩)
      "cpu_percent" = some 55 ∧
    dget (collect_metrics ⟨2, 10, 20, 512, some (7, 8), none⟩)
      "net_bytes_sent" = some 0 ∧
    dget (collect_metrics ⟨2, 10, 20, 512, some (7, 8), none⟩)
      "net_bytes_recv" = some 0 ∧
    dget (collect_metrics ⟨2, 10, 20, 512, some (7, 8), none⟩)
      "disk_write_bytes" = some 8 ∧
    dget (collect_metrics ⟨2, 10, 20, 512, some (7, 8), none⟩)
      "memory_percent" = some 20 ∧
    (run ⟨2, true, 1, []⟩
        (([⟨1, 55, 60, 1024, none, some (3, 4)⟩] : List TickReads).map
          Event.tick)).metrics_history.length = 1 := by
  obtain ⟨hd1, -, -, hn1, hc1, -, -, -, h9⟩ :=
    spec_C3_counter_family_zero_degrade ⟨1, 55, 60, 1024, none, some (3, 4)⟩
  obtain ⟨-, hn2, hd2, -, -, hm2, -, -, -⟩ :=
    spec_C3_counter_family_zero_degrade ⟨2, 10, 20, 512, some (7, 8), none⟩
  have hd1l := hd1 rfl
  have hn1l := hn1 3 4 rfl
  have hn2l := hn2 rfl
  have hd2l := hd2 7 8 rfl
  have h9l := (h9 ⟨2, true, 1, []⟩ rfl (by simp) ([] : List TickReads)).1
  exact ⟨hd1l.1, hd1l.2, hn1l.1, hc1, hn2l.1, hn2l.2, hd2l.2, hm2, h9l⟩

/-- C5 counterexample: the sample built by the collector keys the RAM
usage under memory_used, not memory_used_bytes as the claim states. -/
theorem spec_C5_counterexample :
    dget (collect_metrics ⟨0, 0, 0, 0, none, none⟩) "memory_used_bytes" = none ∧
    dget (collect_metrics ⟨0, 0, 0, 0, none, none⟩) "memory_used" = some 0 :=
  ⟨rfl, rfl⟩

/-- C5 amended: every sample produced by a tick has exactly the keys
timestamp, cpu_percent, memory_percent, memory_used, disk_read_bytes,
disk_write_bytes, net_bytes_sent and net_bytes_recv, in that order,
and every one of them carries a value (an unavailable counter family
is coerced to 0, never omitted). -/
theorem spec_C5_amended_sample_shape (r : TickReads) :
    keys (collect_metrics r) =
      ["timestamp", "cpu_percent", "memory_percent", "memory_used",
        "disk_read_bytes", "disk_write_bytes", "net_bytes_sent",
        "net_bytes_recv"] ∧
    (dget (collect_metrics r) "timestamp").isSome = true ∧
    (dget (collect_metrics r) "cpu_percent").isSome = true ∧
    (dget (collect_metrics r) "memory_percent").isSome = true ∧
    (dget (collect_metrics r) "memory_used").isSome = true ∧
    (dget (collect_metrics r) "disk_read_bytes").isSome = true ∧
    (dget (collect_metrics r) "disk_write_bytes").isSome = true ∧
    (dget (collect_metrics r) "net_bytes_sent").isSome = true ∧
    (dget (collect_metrics r) "net_bytes_recv").isSome = true :=
  ⟨rfl, rfl, rfl, rfl, rfl, rfl, rfl, rfl, rfl⟩

/-- C9 counterexample: the source filters each target by existence of
the file itself, so a target whose file does not exist yet is skipped
even though its parent directory exists; the claim, skipping only
targets in not-yet-created directories, would watch that directory. -/
theorem spec_C9_counterexample :
    logMonitor_start (fun p => p == "logs") (fun _ => "logs")
      ["logs/app.log"] = [] ∧
    logMonitor_start_specVersion (fun p => p == "logs") (fun _ => "logs")
      ["logs/app.log"] = ["logs"] ∧
    logMonitor_start (fun p => p == "logs") (fun _ => "logs")
        ["logs/app.log"] ≠
      logMonitor_start_specVersion (fun p => p == "logs") (fun _ => "logs")
        ["logs/app.log"] := by
  refine ⟨by decide, by decide, by decide⟩

/-- C9 amended: start watches, without duplicates, exactly the parent
directories of those targets that themselves exist as files; a target
whose file does not exist is silently skipped with no error, even when
its parent directory exists. -/
theorem spec_C9_amended_watched_dirs (pathExists : String → Bool)
    (parentDir : String → String) (log_paths : List String) (d : String) :
    (d ∈ logMonitor_start pathExists parentDir log_paths ↔
      ∃ p, (p ∈ log_paths ∧ pathExists p = true) ∧ parentDir p = d) ∧
    (logMonitor_start pathExists parentDir log_paths).Nodup := by
  constructor
  · simp [logMonitor_start, List.mem_dedup, List.mem_map, List.mem_filter]
  · exact List.nodup_dedup _

/-- C10: in every monitor state, get_latest_metrics is exactly the
last element of get_history, and it is none exactly when get_history
is empty. Both accessors are pure functions of the state and leave the
buffer untouched. -/
theorem spec_C10_latest_is_last_of_history (s : MonitorState) :
    get_latest_metrics s = (get_history s).getLast? ∧
    (get_latest_metrics s = none ↔ get_history s = []) := by
  have h1 : get_latest_metrics s = (get_history s).getLast? := by
    rw [get_latest_metrics, get_history, List.getLast?_eq_getElem?]
    by_cases h : s.metrics_history.isEmpty = true
    · rw [if_pos h]
      rw [List.isEmpty_iff] at h
      rw [h]
      rfl
    · rw [if_neg h]
  refine ⟨h1, ?_⟩
  rw [h1, get_history]
  exact List.getLast?_eq_none_iff

end CrashSense
